import Mathlib

/-!
Shallow embedding of the ECGViewer Qt application (`src/ECGViewer/src/*.cpp`)
for checking its natural-language specification.

Doubles are embedded as rationals (`ℚ`), C++ `int` as `ℤ`.  `static_cast<int>`
on a double truncates toward zero; `std::round` rounds half away from zero.
Each definition cites the source function it embeds.
-/

set_option maxRecDepth 4000

attribute [local semireducible] Rat.mul Rat.add Rat.sub Rat.inv

namespace ECGViewer

/-- C++ `static_cast<int>` applied to a double: truncation toward zero. -/
def truncToInt (q : ℚ) : ℤ :=
  if 0 ≤ q then ⌊q⌋ else -⌊-q⌋

/-- C++ `std::round`: rounds half away from zero. -/
def roundCpp (q : ℚ) : ℤ :=
  if 0 ≤ q then ⌊q + 1/2⌋ else -⌊-q + 1/2⌋

/-- C++ `std::clamp(v, lo, hi)` on doubles: `v < lo ? lo : hi < v ? hi : v`. -/
def clampQ (v lo hi : ℚ) : ℚ :=
  if v < lo then lo else if hi < v then hi else v

/-- C++ `std::clamp(v, lo, hi)` on ints. -/
def clampZ (v lo hi : ℤ) : ℤ :=
  if v < lo then lo else if hi < v then hi else v

/-- The five fiducial kinds (enum `FiducialType` in `ECGViewer.hpp`). -/
inductive FiducialType where
  | P | Q | R | S | T
  deriving DecidableEq, Repr, Inhabited

/-- Descriptor of one on-screen fiducial: the store kind and the index into that
kind's time/value vectors (struct `FiducialVisual`, without the Qt item
pointers, which carry no store data). -/
structure FiducialVisual where
  type : FiducialType
  index : ℕ
  deriving DecidableEq, Repr, Inhabited

/-- A note annotation (struct `Note` in `ECGViewer.hpp`). -/
structure Note where
  tag : String
  detail : String
  time : ℚ
  duration : ℚ
  volts : ℚ
  deriving DecidableEq, Repr

instance : Inhabited Note := ⟨⟨"", "", 0, 0, 0⟩⟩

/-- The fields read out of one JSON object by `onLoadNotes`
(`o.value("tag").toString()` etc.; missing keys give Qt defaults). -/
structure RawNote where
  tag : String
  detail : String
  time : ℚ
  volts : ℚ
  duration : ℚ
  deriving DecidableEq, Repr

/-- One element of the root JSON array: either an object (with its extracted
note fields) or a non-object value, which `onLoadNotes` skips. -/
inductive JsonElem where
  | obj (r : RawNote)
  | nonObject
  deriving DecidableEq, Repr

/-- Outcome of `QJsonDocument::fromJson` plus the root-shape test in
`onLoadNotes`: a parse error, a root that is not an array, or the root array. -/
inductive ParseResult where
  | parseError
  | rootNotArray
  | rootArray (elems : List JsonElem)
  deriving DecidableEq, Repr

/-- What the user is shown by a load attempt: success, or the non-fatal
warning dialog (`QMessageBox::warning`) for a failed load. -/
inductive LoadReport where
  | ok
  | loadFailed
  deriving DecidableEq, Repr

/-- The mutable state of the `ECGViewer` window (class `ECGViewer`), restricted
to the data the claims are about: the signal store, the viewport state, the
five fiducial time/value pairs, the note store, the visible-item descriptor
caches, and the hover/drag bookkeeping. Qt widget and item pointers are not
state of the data model and are omitted. -/
structure ViewerState where
  t : List ℚ
  vOrig : List ℚ
  vClean : List ℚ
  artMask : List ℕ
  fs : ℚ
  total_time : ℚ
  window_s : ℚ
  min_window_s : ℚ
  window_samples : ℤ
  max_start_sample : ℤ
  sliderValue : ℤ
  currentX0 : ℚ
  currentX1 : ℚ
  pTimes : List ℚ
  pVals : List ℚ
  qTimes : List ℚ
  qVals : List ℚ
  rTimes : List ℚ
  rVals : List ℚ
  sTimes : List ℚ
  sVals : List ℚ
  tTimes : List ℚ
  tVals : List ℚ
  notes : List Note
  fiducialsCurrent : List FiducialVisual
  notesCurrent : List ℕ
  hoverFiducialIndex : ℤ
  hoverNoteIndex : ℤ
  creatingRegion : Bool
  creatingNoteIndex : ℤ
  regionAnchorTime : ℚ
  deriving DecidableEq, Repr, Inhabited

/-- Constructor arguments of `ECGViewer::ECGViewer` (GUI-only arguments such as
the y-limits and the file prefix are omitted; they do not touch the data
model the claims are about). -/
structure CtorArgs where
  t : List ℚ
  vOrig : List ℚ
  vClean : List ℚ
  artMask : List ℕ
  fs : ℚ
  window_s : ℚ
  pTimes : List ℚ := []
  pVals : List ℚ := []
  qTimes : List ℚ := []
  qVals : List ℚ := []
  rTimes : List ℚ := []
  rVals : List ℚ := []
  sTimes : List ℚ := []
  sVals : List ℚ := []
  tTimes : List ℚ := []
  tVals : List ℚ := []
  deriving DecidableEq, Repr

/-- Embeds `ECGViewer::timesFor`: the time vector of a kind. -/
def timesFor (s : ViewerState) : FiducialType → List ℚ
  | .P => s.pTimes
  | .Q => s.qTimes
  | .R => s.rTimes
  | .S => s.sTimes
  | .T => s.tTimes

/-- Embeds `ECGViewer::valsFor`: the value vector of a kind. -/
def valsFor (s : ViewerState) : FiducialType → List ℚ
  | .P => s.pVals
  | .Q => s.qVals
  | .R => s.rVals
  | .S => s.sVals
  | .T => s.tVals

/-- Writing back through the references returned by `timesFor`/`valsFor`:
replace one kind's time and value vectors. -/
def setKind (s : ViewerState) (k : FiducialType) (ts vs : List ℚ) : ViewerState :=
  match k with
  | .P => { s with pTimes := ts, pVals := vs }
  | .Q => { s with qTimes := ts, qVals := vs }
  | .R => { s with rTimes := ts, rVals := vs }
  | .S => { s with sTimes := ts, sVals := vs }
  | .T => { s with tTimes := ts, tVals := vs }

/-- One kind's pass of `ECGViewer::updateFiducialLines`: a descriptor for every
entry whose time lies in `[x0, x1]` (the code skips `t < x0 || t > x1`). -/
def visibleKind (times : List ℚ) (x0 x1 : ℚ) (k : FiducialType) : List FiducialVisual :=
  (List.range times.length).filterMap fun i =>
    if times.getD i 0 < x0 ∨ x1 < times.getD i 0 then none else some ⟨k, i⟩

/-- Embeds `ECGViewer::updateFiducialLines`: rebuild `fiducialsCurrent_` from scratch,
kinds in the fixed order P, Q, R, S, T. -/
def visibleFiducials (s : ViewerState) (x0 x1 : ℚ) : List FiducialVisual :=
  visibleKind (timesFor s .P) x0 x1 .P ++ visibleKind (timesFor s .Q) x0 x1 .Q ++
  visibleKind (timesFor s .R) x0 x1 .R ++ visibleKind (timesFor s .S) x0 x1 .S ++
  visibleKind (timesFor s .T) x0 x1 .T

/-- Embeds `ECGViewer::updateNoteItems`: rebuild `notesCurrent_` (here: the list of
visible note indices). A point note is visible iff its time is in `[x0, x1]`;
a region note iff `[time, time + max 0 duration]` meets `[x0, x1]`. -/
def visibleNotes (s : ViewerState) (x0 x1 : ℚ) : List ℕ :=
  (List.range s.notes.length).filterMap fun i =>
    let n := s.notes.getD i default
    let t0 := n.time
    let t1 := n.time + max 0 n.duration
    if 0 < n.duration then
      if t1 < x0 ∨ x1 < t0 then none else some i
    else
      if t0 < x0 ∨ x1 < t0 then none else some i

/-- Embeds `ECGViewer::updateWindow(startSample)`: clamp the start sample, set the
axis range `[x0, x0 + window_s]` with `x0 = t[start] - t[0]`, and rebuild both
overlay caches. (The downsampled plot series are rendering only.) -/
def updateWindow (s : ViewerState) (startSample : ℤ) : ViewerState :=
  let st1 := if startSample < 0 then 0 else startSample
  let st := if st1 > s.max_start_sample then s.max_start_sample else st1
  let x0 := s.t.getD st.toNat 0 - s.t.headD 0
  let x1 := x0 + s.window_s
  let s' := { s with currentX0 := x0, currentX1 := x1 }
  { s' with fiducialsCurrent := visibleFiducials s' x0 x1,
            notesCurrent := visibleNotes s' x0 x1 }

/-- Body of `ECGViewer::ECGViewer` after the validity check
(`ECGViewerSetup.cpp` lines 88-104, slider setup, final `updateWindow(0)`). -/
def mkViewerValid (a : CtorArgs) : ViewerState :=
  let tt0 := a.t.getLastD 0 - a.t.headD 0
  let tt := if tt0 ≤ 0 then 1 / max a.fs 1 else tt0
  let ws := if a.window_s ≤ 0 ∨ a.window_s > tt then tt else a.window_s
  let minw := max (1/20) (5 / max a.fs 1)
  let wsamp0 := truncToInt (ws * a.fs)
  let wsamp := if wsamp0 ≤ 0 then min (a.t.length : ℤ) 1 else wsamp0
  let mss := max 0 ((a.t.length : ℤ) - wsamp - 1)
  let s0 : ViewerState :=
    { t := a.t, vOrig := a.vOrig, vClean := a.vClean, artMask := a.artMask,
      fs := a.fs, total_time := tt, window_s := ws, min_window_s := minw,
      window_samples := wsamp, max_start_sample := mss, sliderValue := 0,
      currentX0 := 0, currentX1 := 0,
      pTimes := a.pTimes, pVals := a.pVals, qTimes := a.qTimes, qVals := a.qVals,
      rTimes := a.rTimes, rVals := a.rVals, sTimes := a.sTimes, sVals := a.sVals,
      tTimes := a.tTimes, tVals := a.tVals,
      notes := [], fiducialsCurrent := [], notesCurrent := [],
      hoverFiducialIndex := -1, hoverNoteIndex := -1,
      creatingRegion := false, creatingNoteIndex := -1, regionAnchorTime := 0 }
  updateWindow s0 0

/-- Embeds `ECGViewer::ECGViewer` (`ECGViewerSetup.cpp` lines 81-86): throws
`std::runtime_error` unless all four arrays have equal non-zero length.
No other validation is performed. -/
def mkViewer (a : CtorArgs) : Except String ViewerState :=
  if a.t.length ≠ a.vOrig.length ∨ a.t.length ≠ a.vClean.length ∨
     a.t.length ≠ a.artMask.length ∨ a.t = [] then
    .error "All input vectors must be non-empty and of equal length"
  else
    .ok (mkViewerValid a)

/-- Whether construction succeeded (the C++ constructor did not throw). -/
def exceptOk : Except String ViewerState → Bool
  | .ok _ => true
  | .error _ => false

/-- Embeds `ECGViewer::updateWindowLength` (`ECGViewerPlot.cpp` lines 104-123): clamp
the requested length to `[min_window_s, total_time]`, recompute
`window_samples` (truncating cast) and `max_start_sample`, shrink the slider
value into the new range (Qt's `setMaximum` bounds the value into
`[0, max]`), and refresh via `updateWindow`. -/
def updateWindowLength (s : ViewerState) (newWindowSeconds : ℚ) : ViewerState :=
  let w1 := if newWindowSeconds < s.min_window_s then s.min_window_s else newWindowSeconds
  let w2 := if w1 > s.total_time then s.total_time else w1
  let wsamp := max 1 (truncToInt (w2 * s.fs))
  let mss := max 0 ((s.t.length : ℤ) - wsamp - 1)
  let sv := max 0 (min s.sliderValue mss)
  updateWindow { s with window_s := w2, window_samples := wsamp,
                        max_start_sample := mss, sliderValue := sv } sv

/-- Embeds `slider_->setValue(v)` and the `valueChanged` connection to
`updateWindow`: Qt bounds the value into the slider range
`[0, max_start_sample]`. -/
def setSliderValue (s : ViewerState) (v : ℤ) : ViewerState :=
  let v' := max 0 (min v s.max_start_sample)
  updateWindow { s with sliderValue := v' } v'

/-- Embeds `ECGViewer::nudge(deltaSamples)` (`ECGViewerPlot.cpp` lines 266-271). -/
def nudge (s : ViewerState) (delta : ℤ) : ViewerState :=
  let nv0 := s.sliderValue + delta
  let nv1 := if nv0 < 0 then 0 else nv0
  let nv := if nv1 > s.max_start_sample then s.max_start_sample else nv1
  setSliderValue s nv

/-- The state-changing viewport calls of the spec: slider moves
(`set_start_sample`), keyboard pan, window-length changes, and the Zoom In /
Zoom Out buttons (which call `updateWindowLength(window_s / 1.5)` and
`updateWindowLength(window_s * 1.5)`). -/
inductive ViewportOp where
  | setWindowLength (w : ℚ)
  | setStartSample (v : ℤ)
  | pan (delta : ℤ)
  | zoomIn
  | zoomOut
  deriving DecidableEq, Repr

/-- Dispatch of a viewport operation to the code that implements it. -/
def applyViewportOp (s : ViewerState) : ViewportOp → ViewerState
  | .setWindowLength w => updateWindowLength s w
  | .setStartSample v => setSliderValue s v
  | .pan d => nudge s d
  | .zoomIn => updateWindowLength s (s.window_s / (3/2))
  | .zoomOut => updateWindowLength s (s.window_s * (3/2))

/-- The linear scan of `onInsertManualFiducial`
(`while (insertIndex < times.size() && times[insertIndex] < newTime) ++insertIndex`). -/
def insertIndex (l : List ℚ) (x : ℚ) : ℕ :=
  match l with
  | [] => 0
  | a :: rest => if a < x then insertIndex rest x + 1 else 0

/-- Embeds `QVector::insert(i, x)`: insert `x` so that it ends up at position `i`. -/
def insertAt {α : Type} (l : List α) (i : ℕ) (x : α) : List α :=
  l.take i ++ x :: l.drop i

/-- The insertion time of `onInsertManualFiducial`: the centre of the current
window, clamped into `[0, total_time]` by the two `if`s. -/
def manualInsertTime (s : ViewerState) : ℚ :=
  let c := (s.currentX0 + s.currentX1) / 2
  let c1 := if c < 0 then 0 else c
  if c1 > s.total_time then s.total_time else c1

/-- The nearest-sample index used when resampling a value from `v_clean`:
`round(relTime * fs)` pushed into `[0, N-1]` by the two `if`s of
`onInsertManualFiducial` / `updatePoint` / `onNewNote`. -/
def sampleIndexAt (s : ViewerState) (relTime : ℚ) : ℤ :=
  let i0 := roundCpp (relTime * s.fs)
  let i1 := if i0 < 0 then 0 else i0
  if (s.vClean.length : ℤ) ≤ i1 then (s.vClean.length : ℤ) - 1 else i1

/-- Embeds `ECGViewer::onInsertManualFiducial` (`ECGViewerAnnotations.cpp` lines
26-84): insert an entry for kind `k` at the centre of the current window,
value resampled from `v_clean`, at the position found by the linear scan;
then rebuild the fiducial overlay. -/
def onInsertManualFiducial (s : ViewerState) (k : FiducialType) : ViewerState :=
  let newTime := manualInsertTime s
  let newVal := s.vClean.getD (sampleIndexAt s newTime).toNat 0
  let times := timesFor s k
  let vals := valsFor s k
  let pos := insertIndex times newTime
  let s' := setKind s k (insertAt times pos newTime) (insertAt vals pos newVal)
  { s' with fiducialsCurrent := visibleFiducials s' s'.currentX0 s'.currentX1 }

/-- Embeds `ECGViewer::updatePoint` (`ECGViewerInteractions.cpp` lines 470-487):
overwrite the dragged fiducial's time and resample its value in place. -/
def updatePoint (s : ViewerState) (f : FiducialVisual) (newTime : ℚ) : ViewerState :=
  let times := timesFor s f.type
  let vals := valsFor s f.type
  if (f.index : ℤ) < (times.length : ℤ) then
    setKind s f.type (times.set f.index newTime)
      (vals.set f.index (s.vClean.getD (sampleIndexAt s newTime).toNat 0))
  else s

/-- Embeds `ECGViewer::deleteHoveredFiducial` (`ECGViewerInteractions.cpp` lines
10-52): remove the hovered descriptor's entry from its kind's time and value
vectors, rebuild the fiducial overlay for the current window, and clear the
hover index. -/
def deleteHoveredFiducial (s : ViewerState) : ViewerState :=
  if s.hoverFiducialIndex < 0 ∨ (s.fiducialsCurrent.length : ℤ) ≤ s.hoverFiducialIndex then s
  else
    let f := s.fiducialsCurrent.getD s.hoverFiducialIndex.toNat ⟨.P, 0⟩
    let times := timesFor s f.type
    let vals := valsFor s f.type
    if (times.length : ℤ) ≤ (f.index : ℤ) then s
    else
      let s' := setKind s f.type (times.eraseIdx f.index) (vals.eraseIdx f.index)
      { s' with fiducialsCurrent := visibleFiducials s' s'.currentX0 s'.currentX1,
                hoverFiducialIndex := -1 }

/-- Embeds `ECGViewer::deleteHoveredNote` (`ECGViewerAnnotations.cpp` lines 187-203):
remove the hovered note from the store and rebuild the note overlay. -/
def deleteHoveredNote (s : ViewerState) : ViewerState :=
  if s.hoverNoteIndex < 0 ∨ (s.notesCurrent.length : ℤ) ≤ s.hoverNoteIndex then s
  else
    let ni := s.notesCurrent.getD s.hoverNoteIndex.toNat 0
    if (s.notes.length : ℤ) ≤ (ni : ℤ) then s
    else
      let s' := { s with notes := s.notes.eraseIdx ni }
      { s' with notesCurrent := visibleNotes s' s'.currentX0 s'.currentX1 }

/-- The Delete/Backspace branch of `ECGViewer::keyPressEvent`
(`ECGViewerInteractions.cpp` lines 593-598): a hovered note wins over a
hovered fiducial. -/
def keyPressDelete (s : ViewerState) : ViewerState :=
  if 0 ≤ s.hoverNoteIndex then deleteHoveredNote s else deleteHoveredFiducial s

/-- The `shiftHeld && !item` branch of `ECGViewer::onPlotMousePress`
(`ECGViewerInteractions.cpp` lines 144-186): start creating a region note at
the clamped click time with duration `1/max(fs,1)` (the code comment says
`NOT 0.0`), volts sampled from `v_clean` via `std::clamp`, and rebuild the
note overlay so the new item appears. -/
def onShiftPressEmpty (s : ViewerState) (clickXraw : ℚ) : ViewerState :=
  let clickX := clampQ clickXraw 0 s.total_time
  let eps := 1 / max s.fs 1
  let sampleIndex := clampZ (roundCpp (clickX * s.fs)) 0 ((s.vClean.length : ℤ) - 1)
  let volts := s.vClean.getD sampleIndex.toNat 0
  let n : Note := { tag := "Region " ++ toString (s.notes.length + 1), detail := "",
                    time := clickX, duration := eps, volts := volts }
  let s' := { s with creatingRegion := true, regionAnchorTime := clickX,
                     notes := s.notes ++ [n],
                     creatingNoteIndex := (s.notes.length : ℤ) }
  { s' with notesCurrent := visibleNotes s' s'.currentX0 s'.currentX1 }

/-- The `creatingRegion_` branch of `ECGViewer::onPlotMouseMove`
(`ECGViewerInteractions.cpp` lines 234-248): stretch the new region between
the anchor and the clamped mouse time, keeping duration at least
`1/max(fs,1)`. -/
def onCreateRegionMove (s : ViewerState) (mouseXraw : ℚ) : ViewerState :=
  if s.creatingRegion = true ∧ 0 ≤ s.creatingNoteIndex ∧
     s.creatingNoteIndex < (s.notes.length : ℤ) then
    let i := s.creatingNoteIndex.toNat
    let n := s.notes.getD i default
    let mouseX := clampQ mouseXraw 0 s.total_time
    let eps := 1 / max s.fs 1
    let t0 := min s.regionAnchorTime mouseX
    let t1 := max s.regionAnchorTime mouseX
    { s with notes := s.notes.set i { n with time := t0, duration := max eps (t1 - t0) } }
  else s

/-- The `creatingRegion_` branch of `ECGViewer::onPlotMouseRelease`
(`ECGViewerInteractions.cpp` lines 493-531): collapse the note to a point
note if its duration is below `1/max(fs,1)`, clamp time and duration to the
recording, rebuild the note overlay, and clear the creation state. -/
def onCreateRegionRelease (s : ViewerState) : ViewerState :=
  if s.creatingRegion = true then
    let s0 := { s with creatingRegion := false }
    let s1 :=
      if 0 ≤ s.creatingNoteIndex ∧ s.creatingNoteIndex < (s.notes.length : ℤ) then
        let i := s.creatingNoteIndex.toNat
        let n := s.notes.getD i default
        let minDur := 1 / max s.fs 1
        let d1 := if n.duration < minDur then 0 else n.duration
        let t1 := if n.time < 0 then 0 else n.time
        let t2 := if t1 > s.total_time then s.total_time else t1
        let d2 := if d1 < 0 then 0 else d1
        let d3 := if t2 + d2 > s.total_time then max 0 (s.total_time - t2) else d2
        let s' := { s0 with notes := s.notes.set i { n with time := t2, duration := d3 } }
        { s' with notesCurrent := visibleNotes s' s'.currentX0 s'.currentX1 }
      else s0
    { s1 with creatingNoteIndex := -1, regionAnchorTime := 0 }
  else s

/-- The per-entry clamping of `ECGViewer::onLoadNotes` (`ECGViewerAnnotations.cpp`
lines 522-537), in source order: negative duration to 0, then the
end-of-recording clamp of the duration against the still unclamped time, then
the time clamp into `[0, total_time]`. -/
def clampLoadedNote (total : ℚ) (r : RawNote) : Note :=
  let d1 := if r.duration < 0 then 0 else r.duration
  let d2 := if r.time + d1 > total then max 0 (total - r.time) else d1
  let t1 := if r.time < 0 then 0 else r.time
  let t2 := if t1 > total then total else t1
  { tag := r.tag, detail := r.detail, time := t2, duration := d2, volts := r.volts }

/-- One root-array element of `onLoadNotes`: non-objects are skipped
(`if (!v.isObject()) continue`), objects become clamped notes. -/
def loadEntry (total : ℚ) : JsonElem → Option Note
  | .nonObject => none
  | .obj r => some (clampLoadedNote total r)

/-- Embeds `ECGViewer::onLoadNotes` (`ECGViewerAnnotations.cpp` lines 495-546) from
the parse outcome on: a parse error or a non-array root shows a warning and
returns before touching `notes_`; otherwise the store is replaced by the
loaded, clamped notes and the overlay and list are refreshed. -/
def onLoadNotes (s : ViewerState) (pr : ParseResult) : ViewerState × LoadReport :=
  match pr with
  | .parseError => (s, .loadFailed)
  | .rootNotArray => (s, .loadFailed)
  | .rootArray elems =>
      let s' := { s with notes := elems.filterMap (loadEntry s.total_time) }
      ({ s' with notesCurrent := visibleNotes s' s'.currentX0 s'.currentX1 }, .ok)

/-- Lockstep invariant of the fiducial store: each kind's time and value
vectors have equal length (spelled out per kind so it is decidable). -/
def kindsAligned (s : ViewerState) : Prop :=
  s.pTimes.length = s.pVals.length ∧ s.qTimes.length = s.qVals.length ∧
  s.rTimes.length = s.rVals.length ∧ s.sTimes.length = s.sVals.length ∧
  s.tTimes.length = s.tVals.length

instance (s : ViewerState) : Decidable (kindsAligned s) := by
  unfold kindsAligned; infer_instance

/-- A small concrete viewer state used to instantiate the quantified theorems:
three samples over one second, one P fiducial at `1/4` which is currently
visible and hovered, no hovered note. -/
def demoState : ViewerState :=
  { t := [0, 1/2, 1], vOrig := [0, 0, 0], vClean := [0, 1, 2], artMask := [0, 0, 0],
    fs := 2, total_time := 1, window_s := 1, min_window_s := 5/2,
    window_samples := 2, max_start_sample := 0, sliderValue := 0,
    currentX0 := 0, currentX1 := 1,
    pTimes := [1/4], pVals := [2], qTimes := [], qVals := [],
    rTimes := [], rVals := [], sTimes := [], sVals := [],
    tTimes := [], tVals := [],
    notes := [], fiducialsCurrent := [⟨.P, 0⟩], notesCurrent := [],
    hoverFiducialIndex := 0, hoverNoteIndex := -1,
    creatingRegion := false, creatingNoteIndex := -1, regionAnchorTime := 0 }

theorem updateWindow_window_s (s : ViewerState) (i : ℤ) :
    (updateWindow s i).window_s = s.window_s := rfl

theorem updateWindow_fs (s : ViewerState) (i : ℤ) :
    (updateWindow s i).fs = s.fs := rfl

theorem updateWindow_total_time (s : ViewerState) (i : ℤ) :
    (updateWindow s i).total_time = s.total_time := rfl

theorem updateWindow_min_window_s (s : ViewerState) (i : ℤ) :
    (updateWindow s i).min_window_s = s.min_window_s := rfl

theorem updateWindow_window_samples (s : ViewerState) (i : ℤ) :
    (updateWindow s i).window_samples = s.window_samples := rfl

theorem updateWindow_max_start_sample (s : ViewerState) (i : ℤ) :
    (updateWindow s i).max_start_sample = s.max_start_sample := rfl

theorem updateWindow_sliderValue (s : ViewerState) (i : ℤ) :
    (updateWindow s i).sliderValue = s.sliderValue := rfl

theorem updateWindow_t (s : ViewerState) (i : ℤ) :
    (updateWindow s i).t = s.t := rfl

/-- Lemma: `mkViewer` succeeds exactly on valid inputs, and then returns
`mkViewerValid`. -/
theorem mkViewer_ok_iff (a : CtorArgs) (s : ViewerState) :
    mkViewer a = .ok s ↔
      ¬(a.t.length ≠ a.vOrig.length ∨ a.t.length ≠ a.vClean.length ∨
        a.t.length ≠ a.artMask.length ∨ a.t = []) ∧ s = mkViewerValid a := by
  unfold mkViewer
  split
  · rename_i h
    constructor
    · intro he
      exact absurd he (by simp)
    · intro hc
      exact absurd h hc.1
  · rename_i h
    constructor
    · intro he
      injection he with he
      exact ⟨h, he.symm⟩
    · intro hc
      rw [hc.2]

/-- The linear-scan insertion is Mathlib's `orderedInsert` for `≤`. -/
theorem insertAt_insertIndex_eq_orderedInsert (x : ℚ) :
    ∀ l : List ℚ, insertAt l (insertIndex l x) x = List.orderedInsert (· ≤ ·) x l := by
  intro l
  induction l with
  | nil => rfl
  | cons a rest ih =>
    by_cases h : a < x
    · simp only [insertIndex, if_pos h, insertAt, List.take_succ_cons, List.drop_succ_cons,
        List.orderedInsert, if_neg (not_le.mpr h), List.cons_append]
      exact congrArg (a :: ·) ih
    · simp [insertIndex, if_neg h, insertAt, List.orderedInsert, if_pos (not_lt.mp h)]

/-- Inserting at the scan position preserves a non-decreasing sequence. -/
theorem pairwise_insertAt_insertIndex {l : List ℚ} (x : ℚ)
    (h : List.Pairwise (· ≤ ·) l) :
    List.Pairwise (· ≤ ·) (insertAt l (insertIndex l x) x) := by
  rw [insertAt_insertIndex_eq_orderedInsert]
  exact List.Sorted.orderedInsert x l h

theorem insertAt_length {α : Type} (l : List α) (i : ℕ) (x : α) :
    (insertAt l i x).length = l.length + 1 := by
  simp only [insertAt, List.length_append, List.length_cons, List.length_take,
    List.length_drop]
  omega

theorem insertIndex_le_length (l : List ℚ) (x : ℚ) : insertIndex l x ≤ l.length := by
  induction l with
  | nil => simp [insertIndex]
  | cons a rest ih =>
    by_cases h : a < x
    · simp only [insertIndex, if_pos h, List.length_cons]
      omega
    · simp [insertIndex, h]

theorem eraseIdx_length_eq {α β : Type} (l : List α) (m : List β) (i : ℕ)
    (h : l.length = m.length) : (l.eraseIdx i).length = (m.eraseIdx i).length := by
  rw [List.length_eraseIdx, List.length_eraseIdx, h]

/-- With a non-empty signal, the two clamping `if`s of `sampleIndexAt` compute
the clamp of `round(relTime * fs)` into `[0, N-1]`. -/
theorem sampleIndexAt_eq (s : ViewerState) (r : ℚ) (h : 1 ≤ s.vClean.length) :
    sampleIndexAt s r = max 0 (min (roundCpp (r * s.fs)) ((s.vClean.length : ℤ) - 1)) := by
  have h' : (1 : ℤ) ≤ (s.vClean.length : ℤ) := by exact_mod_cast h
  simp only [sampleIndexAt]
  split <;> split <;> omega

theorem timesFor_setKind_self (s : ViewerState) (k : FiducialType) (ts vs : List ℚ) :
    timesFor (setKind s k ts vs) k = ts := by
  cases k <;> rfl

theorem valsFor_setKind_self (s : ViewerState) (k : FiducialType) (ts vs : List ℚ) :
    valsFor (setKind s k ts vs) k = vs := by
  cases k <;> rfl

theorem timesFor_setKind_other (s : ViewerState) (k k' : FiducialType) (ts vs : List ℚ)
    (h : k' ≠ k) : timesFor (setKind s k ts vs) k' = timesFor s k' := by
  cases k <;> cases k' <;> first | rfl | exact absurd rfl h

theorem valsFor_setKind_other (s : ViewerState) (k k' : FiducialType) (ts vs : List ℚ)
    (h : k' ≠ k) : valsFor (setKind s k ts vs) k' = valsFor s k' := by
  cases k <;> cases k' <;> first | rfl | exact absurd rfl h

theorem timesFor_set_fiducialsCurrent (s : ViewerState) (l : List FiducialVisual)
    (k : FiducialType) : timesFor { s with fiducialsCurrent := l } k = timesFor s k := by
  cases k <;> rfl

theorem valsFor_set_fiducialsCurrent (s : ViewerState) (l : List FiducialVisual)
    (k : FiducialType) : valsFor { s with fiducialsCurrent := l } k = valsFor s k := by
  cases k <;> rfl

theorem setKind_notes (s : ViewerState) (k : FiducialType) (ts vs : List ℚ) :
    (setKind s k ts vs).notes = s.notes := by
  cases k <;> rfl

theorem setKind_currentX0 (s : ViewerState) (k : FiducialType) (ts vs : List ℚ) :
    (setKind s k ts vs).currentX0 = s.currentX0 := by
  cases k <;> rfl

theorem setKind_currentX1 (s : ViewerState) (k : FiducialType) (ts vs : List ℚ) :
    (setKind s k ts vs).currentX1 = s.currentX1 := by
  cases k <;> rfl

theorem timesFor_set_overlay (s : ViewerState) (l : List FiducialVisual) (h : ℤ)
    (k : FiducialType) :
    timesFor { s with fiducialsCurrent := l, hoverFiducialIndex := h } k = timesFor s k := by
  cases k <;> rfl

theorem valsFor_set_overlay (s : ViewerState) (l : List FiducialVisual) (h : ℤ)
    (k : FiducialType) :
    valsFor { s with fiducialsCurrent := l, hoverFiducialIndex := h } k = valsFor s k := by
  cases k <;> rfl

/-- Every descriptor produced by one kind's overlay pass indexes into that
kind's vector and carries that kind. -/
theorem mem_visibleKind {times : List ℚ} {x0 x1 : ℚ} {k : FiducialType}
    {fv : FiducialVisual} (h : fv ∈ visibleKind times x0 x1 k) :
    fv.index < times.length ∧ fv.type = k := by
  unfold visibleKind at h
  obtain ⟨i, hi, heq⟩ := List.mem_filterMap.mp h
  rw [List.mem_range] at hi
  split at heq
  · exact Option.noConfusion heq
  · injection heq with heq
    cases heq
    exact ⟨hi, rfl⟩

/-- Constructor arguments matching `demoState`: three samples spanning one
second at a (nominal) rate of 2 Hz. -/
def demoArgs : CtorArgs :=
  { t := [0, 1/2, 1], vOrig := [0, 0, 0], vClean := [0, 1, 2],
    artMask := [0, 0, 0], fs := 2, window_s := 1 }

/-- C1: the spec claims a create-region gesture released within `1/fs` of the
anchor collapses the new note to a point note (duration 0). On the code a
Shift+press at `x = 1/5` followed immediately by a release (dragged span `0 <
1/fs`) leaves a region note of duration `1/fs = 1/10`: the collapse guard
`n.duration < 1/max(fs,1)` can never fire because creation and every move
force `duration ≥ 1/max(fs,1)`. -/
theorem create_region_click_keeps_min_duration :
    ((mkViewer { t := [0, 1/10, 2/10, 3/10, 4/10, 5/10, 6/10, 7/10, 8/10, 9/10, 1],
                 vOrig := List.replicate 11 0, vClean := List.replicate 11 0,
                 artMask := List.replicate 11 0, fs := 10, window_s := 1 }).toOption.map
        (fun s0 =>
          let s2 := onCreateRegionRelease (onShiftPressEmpty s0 (1/5))
          ((s2.notes.getD 0 default).time, (s2.notes.getD 0 default).duration)))
      = some (1/5, 1/10) ∧ ((1 : ℚ)/10 ≠ 0) := by
  exact ⟨by decide, by decide⟩

/-- C2 (counterexample): construction succeeds on equal non-empty arrays with
`fs = 0`, although the claim says any `fs ≤ 0` is rejected with
`InvalidInput`. -/
theorem construction_accepts_nonpositive_fs :
    exceptOk (mkViewer { t := [0, 1], vOrig := [0, 0], vClean := [0, 0],
                         artMask := [0, 0], fs := 0, window_s := 1 }) = true ∧
    ((0 : ℚ) ≤ 0) := by
  exact ⟨by decide, le_refl 0⟩

/-- C2 (amended): construction fails (the C++ constructor throws) exactly when
the four arrays do not all have equal non-zero length; the sample rate is
never validated. -/
theorem construction_rejects_iff (a : CtorArgs) :
    exceptOk (mkViewer a) = true ↔
      (a.t.length = a.vOrig.length ∧ a.t.length = a.vClean.length ∧
       a.t.length = a.artMask.length ∧ a.t ≠ []) := by
  unfold mkViewer
  split
  · rename_i h
    simp only [exceptOk]
    constructor
    · intro he
      exact Bool.noConfusion he
    · intro hr
      rcases h with h | h | h | h
      · exact absurd hr.1 h
      · exact absurd hr.2.1 h
      · exact absurd hr.2.2.1 h
      · exact absurd h hr.2.2.2
  · rename_i h
    simp only [exceptOk, true_iff]
    push_neg at h
    exact h

/-- C3 (counterexample): constructing with `window_seconds = 9/20` at
`fs = 10` stores `window_samples = 4` (truncating cast of `4.5`), while the
claim's formula `max(1, round(window_seconds * fs))` gives `5`. -/
theorem window_samples_truncation_cex :
    ((mkViewer { t := [0, 1/10, 2/10, 3/10, 4/10, 5/10, 6/10, 7/10, 8/10, 9/10],
                 vOrig := List.replicate 10 0, vClean := List.replicate 10 0,
                 artMask := List.replicate 10 0, fs := 10, window_s := 9/20 }).toOption.map
        (fun s => (s.window_s, s.window_samples)))
      = some (9/20, 4) ∧ max 1 (roundCpp ((9/20 : ℚ) * 10)) = 5 ∧ ((4 : ℤ) ≠ 5) := by
  exact ⟨by decide, by decide, by decide⟩

/-- C3 (amended): after construction and after `set_window_length`,
`window_samples = max(1, trunc(window_seconds * fs))` (truncation toward
zero, not rounding) and `max_start_sample = max(0, N - window_samples - 1)`;
the spec's literal scenario (N=10, fs=10, window_seconds=0.5) still gives
`window_samples = 5`, `max_start_sample = 4`, `x0 = 0`, `x1 = 1/2`. -/
theorem window_geometry_spec :
    (∀ (a : CtorArgs) (s : ViewerState), mkViewer a = .ok s →
        s.window_samples = max 1 (truncToInt (s.window_s * s.fs)) ∧
        s.max_start_sample = max 0 ((s.t.length : ℤ) - s.window_samples - 1)) ∧
    (∀ (s : ViewerState) (w : ℚ),
        (updateWindowLength s w).window_samples =
          max 1 (truncToInt ((updateWindowLength s w).window_s * (updateWindowLength s w).fs)) ∧
        (updateWindowLength s w).max_start_sample =
          max 0 (((updateWindowLength s w).t.length : ℤ) -
                 (updateWindowLength s w).window_samples - 1)) ∧
    (((mkViewer { t := [0, 1/10, 2/10, 3/10, 4/10, 5/10, 6/10, 7/10, 8/10, 9/10],
                  vOrig := List.replicate 10 0, vClean := List.replicate 10 0,
                  artMask := List.replicate 10 0, fs := 10, window_s := 1/2 }).toOption.map
        (fun s => (s.window_samples, s.max_start_sample, s.currentX0, s.currentX1)))
      = some (5, 4, 0, 1/2)) := by
  refine ⟨?_, ?_, by decide⟩
  · intro a s h
    rw [mkViewer_ok_iff] at h
    obtain ⟨hval, rfl⟩ := h
    have hne : a.t ≠ [] := by tauto
    have hlen : 1 ≤ (a.t.length : ℤ) := by
      have := List.length_pos.mpr hne
      omega
    constructor
    · show (mkViewerValid a).window_samples = _
      simp only [mkViewerValid, updateWindow_window_samples, updateWindow_window_s,
        updateWindow_fs]
      split <;> omega
    · rfl
  · intro s w
    exact ⟨rfl, rfl⟩

/-- C3 (witness): the constructor branch of `window_geometry_spec` evaluated
on the demo arguments. -/
theorem window_geometry_spec_witness :
    (mkViewerValid demoArgs).window_samples =
      max 1 (truncToInt ((mkViewerValid demoArgs).window_s * (mkViewerValid demoArgs).fs)) :=
  (window_geometry_spec.1 demoArgs (mkViewerValid demoArgs) rfl).1

/-- C4: the spec claims every note always satisfies `0 ≤ time` and
`time + max(0, duration) ≤ total_time`. Loading the JSON entry
`{time: -5, duration: 7}` into a viewer with `total_time = 1` produces a
stored note with `time = 0, duration = 6`, because `onLoadNotes` clamps the
duration against the still-unclamped negative time and only afterwards clamps
the time: the invariant `0 + max(0,6) ≤ 1` fails. -/
theorem load_clamp_order_violates_bounds :
    ((mkViewer { t := [0, 1], vOrig := [0, 0], vClean := [0, 0], artMask := [0, 0],
                 fs := 10, window_s := 1 }).toOption.map
        (fun s0 =>
          let s1 := (onLoadNotes s0 (.rootArray [.obj ⟨"A", "", -5, 0, 7⟩])).1
          (s1.total_time, (s1.notes.getD 0 default).time,
           (s1.notes.getD 0 default).duration)))
      = some (1, 0, 6) ∧ ¬ ((0 : ℚ) + max 0 6 ≤ 1) := by
  exact ⟨by decide, by decide⟩

/-- C9 (counterexample): constructing from a single sample (`N = 1`,
`t = [5]`, `fs = 10`) stores `total_time = 1/10`, not
`t[N-1] - t[0] = 0`: the constructor replaces a non-positive span by
`1/max(fs,1)`. -/
theorem total_time_single_sample_cex :
    ((mkViewer { t := [5], vOrig := [5], vClean := [5], artMask := [0], fs := 10,
                 window_s := 1 }).toOption.map (fun s => s.total_time))
      = some (1/10) ∧ ((1 : ℚ)/10 ≠ 5 - 5) := by
  exact ⟨by decide, by decide⟩

/-- C9 (amended): for every successful construction, `total_time` equals
`t[N-1] - t[0]` when that span is positive, and `1/max(fs,1)` otherwise. -/
theorem total_time_spec (a : CtorArgs) (s : ViewerState) (h : mkViewer a = .ok s) :
    s.total_time =
      (if a.t.getLastD 0 - a.t.headD 0 ≤ 0 then 1 / max a.fs 1
       else a.t.getLastD 0 - a.t.headD 0) := by
  rw [mkViewer_ok_iff] at h
  rw [h.2]
  rfl

/-- C9 (witness): `total_time_spec` evaluated on the demo arguments. -/
theorem total_time_spec_witness :
    (mkViewerValid demoArgs).total_time =
      (if demoArgs.t.getLastD 0 - demoArgs.t.headD 0 ≤ 0 then 1 / max demoArgs.fs 1
       else demoArgs.t.getLastD 0 - demoArgs.t.headD 0) :=
  total_time_spec demoArgs (mkViewerValid demoArgs) rfl

/-- C7: a load whose parse fails or whose root is not a JSON array reports
the non-fatal failure and returns the viewer state unchanged (in particular
the note store is untouched). -/
theorem load_failure_keeps_store (s : ViewerState) (pr : ParseResult)
    (h : pr = .parseError ∨ pr = .rootNotArray) :
    (onLoadNotes s pr).1 = s ∧ (onLoadNotes s pr).2 = .loadFailed := by
  rcases h with h | h <;> subst h <;> exact ⟨rfl, rfl⟩

/-- C7 (witness): a parse error on the demo state. -/
theorem load_failure_keeps_store_witness :
    (onLoadNotes demoState .parseError).1 = demoState ∧
    (onLoadNotes demoState .parseError).2 = .loadFailed :=
  load_failure_keeps_store demoState .parseError (Or.inl rfl)


/-- Clamping a requested window length first up to `minw`, then down to
`total`, lands in `[min minw total, total]`. -/
theorem window_clamp_bounds (minw total w : ℚ) :
    min minw total ≤ (if (if w < minw then minw else w) > total then total
       else if w < minw then minw else w) ∧
    (if (if w < minw then minw else w) > total then total
       else if w < minw then minw else w) ≤ total := by
  by_cases h1 : w < minw
  · simp only [if_pos h1]
    by_cases h2 : minw > total
    · simp only [if_pos h2]
      exact ⟨min_le_right _ _, le_refl _⟩
    · simp only [if_neg h2]
      exact ⟨min_le_left _ _, le_of_not_lt h2⟩
  · simp only [if_neg h1]
    by_cases h2 : w > total
    · simp only [if_pos h2]
      exact ⟨min_le_right _ _, le_refl _⟩
    · simp only [if_neg h2]
      exact ⟨le_trans (min_le_left _ _) (le_of_not_lt h1), le_of_not_lt h2⟩

/-- C5 (counterexample): the claim says after any state-changing viewport call
`min_window_seconds <= window_seconds`. Constructing with
`window_seconds = 1/100` at `fs = 100` (accepted unchanged by the
constructor, which never clamps up to the minimum) and then panning via
`set_start_sample 0` leaves `window_seconds = 1/100 < 1/20 =
min_window_seconds`. -/
theorem pan_keeps_subminimal_window :
    ((mkViewer { t := [0, 1/2, 1], vOrig := [0, 0, 0], vClean := [0, 0, 0],
                 artMask := [0, 0, 0], fs := 100, window_s := 1/100 }).toOption.map
        (fun s => ((applyViewportOp s (.setStartSample 0)).window_s,
                   (applyViewportOp s (.setStartSample 0)).min_window_s)))
      = some (1/100, 1/20) ∧ ¬ ((1 : ℚ)/20 ≤ 1/100) := by
  exact ⟨by decide, by decide⟩

/-- C5 (amended): after any state-changing viewport call on a state with
`0 ≤ max_start_sample`, `0 ≤ start_sample ≤ max_start_sample` holds; after
`set_window_length` (which the zoom buttons use),
`min(min_window_seconds, total_time) ≤ window_seconds ≤ total_time`;
`set_start_sample` and pan leave `window_seconds` unchanged, so a
construction value below `min_window_seconds` persists. -/
theorem viewport_bounds_spec :
    (∀ (s : ViewerState) (op : ViewportOp), 0 ≤ s.max_start_sample →
        0 ≤ (applyViewportOp s op).sliderValue ∧
        (applyViewportOp s op).sliderValue ≤ (applyViewportOp s op).max_start_sample ∧
        0 ≤ (applyViewportOp s op).max_start_sample) ∧
    (∀ (s : ViewerState) (w : ℚ),
        min s.min_window_s s.total_time ≤ (updateWindowLength s w).window_s ∧
        (updateWindowLength s w).window_s ≤ s.total_time) ∧
    (∀ (s : ViewerState) (v : ℤ), (setSliderValue s v).window_s = s.window_s) ∧
    (∀ (s : ViewerState) (d : ℤ), (nudge s d).window_s = s.window_s) := by
  refine ⟨?_, ?_, fun s v => rfl, fun s d => rfl⟩
  · intro s op h
    cases op <;>
      simp only [applyViewportOp, updateWindowLength, setSliderValue, nudge,
        updateWindow_sliderValue, updateWindow_max_start_sample] <;>
      omega
  · intro s w
    exact window_clamp_bounds s.min_window_s s.total_time w

/-- C5 (witness): the slider bounds after a pan on the demo state. -/
theorem viewport_bounds_spec_witness :
    0 ≤ (applyViewportOp demoState (.pan 1)).sliderValue ∧
    (applyViewportOp demoState (.pan 1)).sliderValue ≤
      (applyViewportOp demoState (.pan 1)).max_start_sample ∧
    0 ≤ (applyViewportOp demoState (.pan 1)).max_start_sample :=
  viewport_bounds_spec.1 demoState (.pan 1) (by decide)

/-- C6: a manual fiducial insert for kind `k` inserts the clamped window-centre
time at the scan position in `k`'s time vector, inserts the value resampled
from `v_clean` at the clamped nearest-sample index at the same position in
`k`'s value vector, preserves a non-decreasing time vector, and leaves every
other kind untouched; on the spec's literal scenario (window `[0, 1/2]`,
`v_clean[i] = i`, `fs = 10`) the new P entry is `(1/4, 3)`. -/
theorem manual_fiducial_insert_spec :
    (∀ (s : ViewerState) (k : FiducialType),
        timesFor (onInsertManualFiducial s k) k =
          insertAt (timesFor s k) (insertIndex (timesFor s k) (manualInsertTime s))
            (manualInsertTime s) ∧
        (1 ≤ s.vClean.length →
          valsFor (onInsertManualFiducial s k) k =
            insertAt (valsFor s k) (insertIndex (timesFor s k) (manualInsertTime s))
              (s.vClean.getD
                (max 0 (min (roundCpp (manualInsertTime s * s.fs))
                  ((s.vClean.length : ℤ) - 1))).toNat 0)) ∧
        (List.Pairwise (· ≤ ·) (timesFor s k) →
          List.Pairwise (· ≤ ·) (timesFor (onInsertManualFiducial s k) k)) ∧
        (∀ k', k' ≠ k →
          timesFor (onInsertManualFiducial s k) k' = timesFor s k' ∧
          valsFor (onInsertManualFiducial s k) k' = valsFor s k')) ∧
    (((mkViewer { t := [0, 1/10, 2/10, 3/10, 4/10, 5/10, 6/10, 7/10, 8/10, 9/10],
                  vOrig := List.replicate 10 0,
                  vClean := [0, 1, 2, 3, 4, 5, 6, 7, 8, 9],
                  artMask := List.replicate 10 0, fs := 10, window_s := 1/2 }).toOption.map
        (fun s => (timesFor (onInsertManualFiducial s .P) .P,
                   valsFor (onInsertManualFiducial s .P) .P)))
      = some ([1/4], [3])) := by
  refine ⟨?_, by decide⟩
  intro s k
  have htimes : timesFor (onInsertManualFiducial s k) k =
      insertAt (timesFor s k) (insertIndex (timesFor s k) (manualInsertTime s))
        (manualInsertTime s) := by
    simp only [onInsertManualFiducial, timesFor_set_fiducialsCurrent, timesFor_setKind_self]
  refine ⟨htimes, ?_, ?_, ?_⟩
  · intro h
    simp only [onInsertManualFiducial, valsFor_set_fiducialsCurrent, valsFor_setKind_self]
    rw [sampleIndexAt_eq s _ h]
  · intro hp
    rw [htimes]
    exact pairwise_insertAt_insertIndex _ hp
  · intro k' hk'
    constructor
    · simp only [onInsertManualFiducial, timesFor_set_fiducialsCurrent]
      exact timesFor_setKind_other _ _ _ _ _ hk'
    · simp only [onInsertManualFiducial, valsFor_set_fiducialsCurrent]
      exact valsFor_setKind_other _ _ _ _ _ hk'

/-- C6 (witness): inserting a P fiducial into the demo state keeps the P times
non-decreasing. -/
theorem manual_fiducial_insert_spec_witness :
    List.Pairwise (· ≤ ·) (timesFor (onInsertManualFiducial demoState .P) .P) :=
  (manual_fiducial_insert_spec.1 demoState .P).2.2.1 (by decide)


/-- C10: the lockstep invariant — each fiducial kind's time and value vectors
have equal length — is preserved by a manual insert (both vectors gain one
entry at the same position), by deleting the hovered fiducial (both lose the
same index), and by an interactive move (`updatePoint` overwrites both in
place). -/
theorem fiducial_vectors_lockstep (s : ViewerState) (h : kindsAligned s) :
    (∀ k, kindsAligned (onInsertManualFiducial s k)) ∧
    kindsAligned (deleteHoveredFiducial s) ∧
    (∀ (f : FiducialVisual) (x : ℚ), kindsAligned (updatePoint s f x)) := by
  obtain ⟨h1, h2, h3, h4, h5⟩ := h
  refine ⟨?_, ?_, ?_⟩
  · intro k
    cases k <;>
      · simp only [onInsertManualFiducial, setKind, kindsAligned, timesFor, valsFor,
          insertAt_length]
        exact ⟨by omega, by omega, by omega, by omega, by omega⟩
  · simp only [deleteHoveredFiducial]
    split
    · exact ⟨h1, h2, h3, h4, h5⟩
    · generalize s.fiducialsCurrent.getD s.hoverFiducialIndex.toNat ⟨.P, 0⟩ = f
      obtain ⟨ft, fi⟩ := f
      cases ft
      · split
        · exact ⟨h1, h2, h3, h4, h5⟩
        · simp only [setKind, kindsAligned, timesFor, valsFor]
          exact ⟨eraseIdx_length_eq _ _ _ h1, h2, h3, h4, h5⟩
      · split
        · exact ⟨h1, h2, h3, h4, h5⟩
        · simp only [setKind, kindsAligned, timesFor, valsFor]
          exact ⟨h1, eraseIdx_length_eq _ _ _ h2, h3, h4, h5⟩
      · split
        · exact ⟨h1, h2, h3, h4, h5⟩
        · simp only [setKind, kindsAligned, timesFor, valsFor]
          exact ⟨h1, h2, eraseIdx_length_eq _ _ _ h3, h4, h5⟩
      · split
        · exact ⟨h1, h2, h3, h4, h5⟩
        · simp only [setKind, kindsAligned, timesFor, valsFor]
          exact ⟨h1, h2, h3, eraseIdx_length_eq _ _ _ h4, h5⟩
      · split
        · exact ⟨h1, h2, h3, h4, h5⟩
        · simp only [setKind, kindsAligned, timesFor, valsFor]
          exact ⟨h1, h2, h3, h4, eraseIdx_length_eq _ _ _ h5⟩
  · intro f x
    obtain ⟨ft, fi⟩ := f
    simp only [updatePoint]
    cases ft <;>
      · split
        · simp only [setKind, kindsAligned, timesFor, valsFor, List.length_set]
          exact ⟨h1, h2, h3, h4, h5⟩
        · exact ⟨h1, h2, h3, h4, h5⟩

/-- C10 (witness): the lockstep invariant after deleting the hovered fiducial
of the demo state. -/
theorem fiducial_vectors_lockstep_witness :
    kindsAligned (deleteHoveredFiducial demoState) :=
  (fiducial_vectors_lockstep demoState (by decide)).2.1


/-- C8: pressing Delete with a fiducial hovered and no note hovered removes
exactly the targeted entry from its kind's time and value vectors, leaves the
other four kinds and the note store unchanged, and rebuilds the
visible-fiducial descriptors from the updated store for the current window
(so no descriptor can reference the removed slot: every rebuilt descriptor of
that kind indexes below the shrunk length). -/
theorem delete_hovered_fiducial_spec (s : ViewerState)
    (hn : s.hoverNoteIndex < 0)
    (h0 : 0 ≤ s.hoverFiducialIndex)
    (h1 : s.hoverFiducialIndex < (s.fiducialsCurrent.length : ℤ))
    (f : FiducialVisual)
    (hf : f = s.fiducialsCurrent.getD s.hoverFiducialIndex.toNat ⟨.P, 0⟩)
    (hidx : f.index < (timesFor s f.type).length) :
    timesFor (keyPressDelete s) f.type = (timesFor s f.type).eraseIdx f.index ∧
    valsFor (keyPressDelete s) f.type = (valsFor s f.type).eraseIdx f.index ∧
    (∀ k, k ≠ f.type →
      timesFor (keyPressDelete s) k = timesFor s k ∧
      valsFor (keyPressDelete s) k = valsFor s k) ∧
    (keyPressDelete s).notes = s.notes ∧
    (keyPressDelete s).fiducialsCurrent =
      visibleFiducials
        (setKind s f.type ((timesFor s f.type).eraseIdx f.index)
          ((valsFor s f.type).eraseIdx f.index)) s.currentX0 s.currentX1 ∧
    (∀ fv ∈ (keyPressDelete s).fiducialsCurrent, fv.type = f.type →
      fv.index < (timesFor s f.type).length - 1) := by
  have hkey : keyPressDelete s = deleteHoveredFiducial s := by
    unfold keyPressDelete
    rw [if_neg (not_le.mpr hn)]
  have hguard1 : ¬(s.hoverFiducialIndex < 0 ∨
      (s.fiducialsCurrent.length : ℤ) ≤ s.hoverFiducialIndex) := by
    omega
  have hguard2 : ¬(((timesFor s f.type).length : ℤ) ≤ (f.index : ℤ)) := by
    exact_mod_cast not_le.mpr hidx
  have hdel : deleteHoveredFiducial s =
      { setKind s f.type ((timesFor s f.type).eraseIdx f.index)
          ((valsFor s f.type).eraseIdx f.index) with
        fiducialsCurrent :=
          visibleFiducials
            (setKind s f.type ((timesFor s f.type).eraseIdx f.index)
              ((valsFor s f.type).eraseIdx f.index))
            (setKind s f.type ((timesFor s f.type).eraseIdx f.index)
              ((valsFor s f.type).eraseIdx f.index)).currentX0
            (setKind s f.type ((timesFor s f.type).eraseIdx f.index)
              ((valsFor s f.type).eraseIdx f.index)).currentX1,
        hoverFiducialIndex := -1 } := by
    simp only [deleteHoveredFiducial, ← hf]
    rw [if_neg hguard1, if_neg hguard2]
  refine ⟨?_, ?_, ?_, ?_, ?_, ?_⟩
  · rw [hkey, hdel, timesFor_set_overlay, timesFor_setKind_self]
  · rw [hkey, hdel, valsFor_set_overlay, valsFor_setKind_self]
  · intro k hk
    rw [hkey, hdel]
    constructor
    · rw [timesFor_set_overlay, timesFor_setKind_other _ _ _ _ _ hk]
    · rw [valsFor_set_overlay, valsFor_setKind_other _ _ _ _ _ hk]
  · rw [hkey, hdel]
    exact setKind_notes _ _ _ _
  · rw [hkey, hdel]
    simp only [setKind_currentX0, setKind_currentX1]
  · intro fv hmem htype
    rw [hkey, hdel] at hmem
    have hlen : ((timesFor s f.type).eraseIdx f.index).length =
        (timesFor s f.type).length - 1 := by
      rw [List.length_eraseIdx, if_pos hidx]
    simp only [visibleFiducials, List.mem_append] at hmem
    rcases hmem with ((((hm | hm) | hm) | hm) | hm) <;>
      · obtain ⟨hlt, hty⟩ := mem_visibleKind hm
        have hk := htype.symm.trans hty
        rw [← hk, timesFor_setKind_self] at hlt
        rw [← hlen]
        exact hlt

/-- C8 (witness): deleting the hovered P fiducial of the demo state empties
the P store and keeps the notes. -/
theorem delete_hovered_fiducial_spec_witness :
    timesFor (keyPressDelete demoState) FiducialType.P = [] ∧
    (keyPressDelete demoState).notes = demoState.notes := by
  have h := delete_hovered_fiducial_spec demoState (by decide) (by decide) (by decide)
      ⟨.P, 0⟩ (by decide) (by decide)
  exact ⟨h.1.trans (by decide), h.2.2.2.1⟩

end ECGViewer
